import Mathlib

/-!
# testutils/bench_delivery.go

Shallow embedding of the benchmark fixture of the delivery core:
`multipleErrs.SetStatus`, `RandomMsg` and `BenchDelivery`, together with the
parts of the Go standard library they call (`strconv.Itoa`, `strings.Replace`,
`strings.Repeat`, `ioutil.ReadAll`).

A Go string (and a byte slice) is a sequence of bytes.  All fixtures of the
file are ASCII, so one `Char` stands for one byte.
-/

set_option autoImplicit false
set_option maxRecDepth 100000

namespace testutils

/-- A Go string or byte slice: a finite sequence of bytes. -/
abbrev GoString := List Char

/-- A Go value of interface type error: `none` is nil, `some msg` is an error. -/
abbrev error := Option GoString

/-! ## Constants (lines 18-22) -/

def MessageBodySize : Nat := 100 * 1024

def ExtraMessageHeaderFields : Nat := 10

def ExtraMessageHeaderFieldSize : Nat := 50

/-! ## Standard library: strconv.Itoa, strings.Repeat, strings.Replace -/

/-- The byte of a decimal digit, '0' + d. -/
def digitByte (d : Nat) : Char := Char.ofNat (48 + d)

/-- The loop of strconv.formatBits for base 10: digits are produced from the
least significant one and written in front of what is already there. -/
def formatBits : Nat → Nat → GoString → GoString
  | 0, u, acc => digitByte u :: acc
  | fuel + 1, u, acc =>
      if 10 ≤ u then formatBits fuel (u / 10) (digitByte (u % 10) :: acc)
      else digitByte u :: acc

/-- Decimal representation of an unsigned number. -/
def utoa (u : Nat) : GoString := formatBits u u []

/-- Function strconv.Itoa: decimal representation of an int, with a leading
minus sign for a negative one. -/
def Itoa (i : Int) : GoString :=
  if i < 0 then '-' :: utoa (-i).toNat else utoa i.toNat

/-- Function strings.Repeat for a one-byte string. -/
def Repeat (c : Char) (count : Nat) : GoString := List.replicate count c

/-- Left-to-right scan of strings.Replace for a non-empty `old`: `skip` bytes
of the occurrence just replaced are still to be dropped, `n` is the number of
replacements still allowed (`none`: no limit). -/
def replaceScan (old new : GoString) : GoString → Nat → Option Nat → GoString
  | [], _, _ => []
  | _ :: cs, skip + 1, n => replaceScan old new cs skip n
  | c :: cs, 0, n =>
      if n ≠ some 0 ∧ old.isPrefixOf (c :: cs) = true then
        new ++ replaceScan old new cs (old.length - 1) (n.map (· - 1))
      else c :: replaceScan old new cs 0 n

/-- Case of strings.Replace for an empty `old`: it matches at the beginning of
the string and after each symbol. -/
def replaceEmpty (new : GoString) : GoString → Option Nat → GoString
  | s, some 0 => s
  | [], _ => new
  | c :: cs, n => new ++ c :: replaceEmpty new cs (n.map (· - 1))

/-- Function strings.Replace: a copy of `s` with the first `n` non-overlapping
instances of `old` replaced by `new`; no limit when `n < 0`. -/
def Replace (s old new : GoString) (n : Int) : GoString :=
  if old = new ∨ n = 0 then s
  else
    let limit : Option Nat := if n < 0 then none else some n.toNat
    if old = [] then replaceEmpty new s limit else replaceScan old new s 0 limit

/-! ## Standard library: readers over bytes in memory, ioutil.ReadAll -/

/-- A reader over bytes held in memory (strings.Reader, bytes.Reader, also
behind a bufio.Reader): the bytes that are still unread. -/
structure Reader where
  unread : GoString
  deriving DecidableEq

/-- Method Read with a destination of `n` bytes: hands out and consumes up to
`n` bytes; the flag is true at end of input, where nothing is handed out. -/
def Reader.Read (r : Reader) (n : Nat) : GoString × Bool × Reader :=
  if r.unread = [] then ([], true, r) else (r.unread.take n, false, ⟨r.unread.drop n⟩)

/-- Size of the chunks ioutil.ReadAll asks for (bytes.MinRead). -/
def MinRead : Nat := 512

/-- The loop of ioutil.ReadAll: chunks are appended until end of input. -/
def readAllLoop : Nat → Reader → GoString → GoString × Reader
  | 0, r, acc => (acc, r)
  | fuel + 1, r, acc =>
      match r.Read MinRead with
      | (_, true, r1) => (acc, r1)
      | (chunk, false, r1) => readAllLoop fuel r1 (acc ++ chunk)

/-- Function ioutil.ReadAll: everything up to end of input, and the reader
left at end of input.  One round per unread byte and one more for the end of
input always suffice. -/
def ReadAll (r : Reader) : GoString × Reader :=
  readAllLoop (r.unread.length + 1) r []

/-- Function hex.EncodeToString on bytes given as numbers. -/
def EncodeToString (src : List Nat) : GoString :=
  let hextable : GoString := "0123456789abcdef".toList
  src.foldr (fun v out => hextable.getD (v / 16 % 16) '0' :: hextable.getD (v % 16) '0' :: out) []

/-! ## Header (package textproto) and Buffer (package buffer) -/

/-- One header field. -/
structure Field where
  name : GoString
  value : GoString
  deriving DecidableEq

/-- Modelled from the spec: the type textproto.Header is not among the
sources.  The spec (sections 3 and 4.1) describes it as an ordered sequence of
(field-name, field-value) pairs. -/
structure Header where
  fields : List Field
  deriving DecidableEq

/-- Modelled from the spec: method Header.Add is not among the sources.  The
spec (section 4.1): Add(name, value) appends a field preserving insertion
order; does not deduplicate. -/
def Header.Add (h : Header) (k v : GoString) : Header :=
  ⟨h.fields ++ [⟨k, v⟩]⟩

/-- Spaces and tabs dropped at both ends. -/
def trimSpace (s : GoString) : GoString :=
  let isSp : Char → Bool := fun c => c == ' ' || c == '\t'
  ((s.dropWhile isSp).reverse.dropWhile isSp).reverse

/-- One header line without its line end, split at the first colon. -/
def parseField (line : GoString) : Option Field :=
  match line.span (fun c => c != ':') with
  | (name, _ :: rest) => if name = [] then none else some ⟨name, trimSpace rest⟩
  | (_, []) => none

/-- A line without the carriage return that may precede the line feed. -/
def dropCR : GoString → GoString
  | '\r' :: cur => cur
  | cur => cur

/-- Line-by-line scan of the header: `cur` holds the bytes of the current line
in reverse, `acc` the fields read so far in reverse.  The scan ends after the
first empty line; what follows it stays unread. -/
def readHeaderScan : GoString → GoString → List Field → (Header × error) × Reader
  | [], _, _ => ((⟨[]⟩, some "unexpected EOF".toList), ⟨[]⟩)
  | c :: rest, cur, acc =>
      if c = '\n' then
        let line := (dropCR cur).reverse
        if line = [] then ((⟨acc.reverse⟩, none), ⟨rest⟩)
        else
          match parseField line with
          | none => ((⟨[]⟩, some "malformed header line".toList), ⟨rest⟩)
          | some f => readHeaderScan rest [] (f :: acc)
      else readHeaderScan rest (c :: cur) acc

/-- Modelled from the spec: function textproto.ReadHeader is not among the
sources.  The spec (section 4.1): Parse(stream) yields the Header and fails on
invalid field syntax or premature stream end before the header terminator;
fields keep their original order (section 3).  Lines `name: value` end in CR LF
and the terminator is the first empty line; the bytes after it stay in the
reader. -/
def ReadHeader (r : Reader) : (Header × error) × Reader :=
  readHeaderScan r.unread [] []

/-- Modelled from the spec: the type buffer.MemoryBuffer is not among the
sources.  The spec (section 3): a memory-backed Buffer owns a byte slice
directly and is never mutated after creation. -/
structure MemoryBuffer where
  Slice : GoString
  deriving DecidableEq

/-- Modelled from the spec: method MemoryBuffer.Open is not among the sources.
The spec (section 4.2): Open() returns a fresh, independently-positioned
readable stream each call. -/
def MemoryBuffer.Open (mb : MemoryBuffer) : Reader := ⟨mb.Slice⟩

/-! ## Fixtures (lines 24-95) -/

def testHeaderString : GoString :=
  ("Content-Type: multipart/mixed; boundary=message-boundary\r\n" ++
  "Date: Sat, 19 Jun 2016 12:00:00 +0900\r\n" ++
  "From: Mitsuha Miyamizu <mitsuha.miyamizu@example.org>\r\n" ++
  "Reply-To: Mitsuha Miyamizu <mitsuha.miyamizu+replyto@example.org>\r\n" ++
  "Message-Id: 42@example.org\r\n" ++
  "MIME-Version: 1.0\r\n" ++
  "Content-Transfer-Encoding: 8but\r\n" ++
  "Subject: Your Name.\r\n" ++
  "To: Taki Tachibana <taki.tachibana@example.org>\r\n" ++
  "\r\n").toList

def testAltHeaderString : GoString :=
  ("Content-Type: multipart/alternative; boundary=b2\r\n" ++
  "\r\n").toList

def testTextHeaderString : GoString :=
  ("Content-Disposition: inline\r\n" ++
  "Content-Type: text/plain\r\n" ++
  "\r\n").toList

def testTextBodyString : GoString := "What\x27s your name?".toList

def testTextString : GoString := testTextHeaderString ++ testTextBodyString

def testHTMLHeaderString : GoString :=
  ("Content-Disposition: inline\r\n" ++
  "Content-Type: text/html\r\n" ++
  "\r\n").toList

def testHTMLBodyString : GoString := "<div>What\x27s <i>your</i> name?</div>".toList

def testHTMLString : GoString := testHTMLHeaderString ++ testHTMLBodyString

def testAttachmentHeaderString : GoString :=
  ("Content-Disposition: attachment; filename=note.txt\r\n" ++
  "Content-Type: text/plain\r\n" ++
  "\r\n").toList

def testAttachmentBodyString : GoString := "My name is Mitsuha.".toList

def testAttachmentString : GoString := testAttachmentHeaderString ++ testAttachmentBodyString

def testBodyString : GoString :=
  "--message-boundary\r\n".toList ++
  testAltHeaderString ++
  "\r\n--b2\r\n".toList ++
  testTextString ++
  "\r\n--b2\r\n".toList ++
  testHTMLString ++
  "\r\n--b2--\r\n".toList ++
  "\r\n--message-boundary\r\n".toList ++
  testAttachmentString ++
  "\r\n--message-boundary--\r\n".toList

def testMailString : GoString :=
  testHeaderString ++ testBodyString ++ Repeat 'A' MessageBodySize

/-! ## multipleErrs (lines 97-101) -/

/-- The type multipleErrs, map[string]error: a finite map from recipient to
outcome.  A key may be present with the outcome nil.  The values modelled are
allocated maps (made by make or by a literal); assigning to an entry of a nil
map panics in Go. -/
abbrev multipleErrs := AList (fun _ : GoString => error)

/-- Method SetStatus: `m[rcptTo] = err`. -/
def multipleErrs.SetStatus (m : multipleErrs) (rcptTo : GoString) (err : error) : multipleErrs :=
  m.insert rcptTo err

/-! ## RandomMsg (lines 103-118) -/

/-- The fields of module.MsgMetadata that RandomMsg sets; the others keep their
zero value. -/
structure MsgMetadata where
  DontTraceSender : Bool
  ID : GoString
  deriving DecidableEq

/-- What the code reads from a testing.B: the iteration count and the name. -/
structure B where
  N : Nat
  Name : GoString

/-- The loop of lines 109-111: `n` fields are added, the first with number `i`. -/
def addExtraFields : Nat → Nat → Header → Header
  | 0, _, hdr => hdr
  | n + 1, i, hdr =>
      addExtraFields n (i + 1)
        (hdr.Add ("AAAAAAAAAAAA-".toList ++ Itoa i) (Repeat 'A' ExtraMessageHeaderFieldSize))

/-- Function RandomMsg.  The SHA-1 function of crypto/sha1 is a parameter. -/
def RandomMsg (sha1Sum : GoString → List Nat) (b : B) : MsgMetadata × Header × MemoryBuffer :=
  let IDRaw := sha1Sum b.Name
  let encodedID := EncodeToString IDRaw
  let body : Reader := ⟨testMailString⟩
  let read := ReadHeader body
  let hdr := read.1.1
  let body := read.2
  let hdr := addExtraFields ExtraMessageHeaderFields 0 hdr
  let bodyBlob := (ReadAll body).1
  ({ DontTraceSender := true, ID := encodedID }, hdr, { Slice := bodyBlob })

/-! ## BenchDelivery (lines 120-147) -/

/-- A call made on the delivery target or on a delivery it returned. -/
inductive Call where
  | Start (msgMeta : MsgMetadata) (mailFrom : GoString)
  | AddRcpt (rcptTo : GoString)
  | Body (header : Header) (body : MemoryBuffer)
  | Abort
  | Commit
  deriving DecidableEq

/-- The interfaces module.DeliveryTarget and module.Delivery, which are not
among the sources: an arbitrary implementation with state `σ`.  The state
covers the target and the delivery that Start returned; each method gives its
error result and the next state. -/
structure DeliveryTarget (σ : Type) where
  Start : σ → MsgMetadata → GoString → error × σ
  AddRcpt : σ → GoString → error × σ
  Body : σ → Header → MemoryBuffer → error × σ
  Abort : σ → error × σ
  Commit : σ → error × σ

/-- State of a benchmark run: the state of the target, the calls made so far
with their results (oldest first), and the error `b.Fatal` was called with.
Function `b.Fatal` ends the goroutine, so nothing runs once `failed` is set. -/
structure Run (σ : Type) where
  target : σ
  log : List (Call × error)
  failed : error

/-- One call followed by `if err != nil { b.Fatal(err) }`. -/
def Run.call {σ : Type} (st : Run σ) (c : Call) (method : σ → error × σ) : Run σ :=
  match st.failed with
  | some _ => st
  | none =>
      let (err, s) := method st.target
      { target := s, log := st.log ++ [(c, err)], failed := err }

/-- The loop of lines 131-137 over the templates that remain, `i` being the
index of the first of them in the list. -/
def addRcpts {σ : Type} (target : DeliveryTarget σ) : List GoString → Nat → Run σ → Run σ
  | [], _, st => st
  | rcptTemplate :: rest, i, st =>
      let rcpt := Replace rcptTemplate "X".toList (Itoa i) (-1)
      addRcpts target rest (i + 1)
        (st.call (.AddRcpt rcpt) (fun s => target.AddRcpt s rcpt))

/-- The body of the loop of lines 125-146. -/
def iteration {σ : Type} (target : DeliveryTarget σ) (msgMeta : MsgMetadata) (header : Header)
    (body : MemoryBuffer) (sender : GoString) (recipientTemplates : List GoString)
    (st : Run σ) : Run σ :=
  let st := st.call (.Start msgMeta sender) (fun s => target.Start s msgMeta sender)
  let st := addRcpts target recipientTemplates 0 st
  let st := st.call (.Body header body) (fun s => target.Body s header body)
  st.call .Commit target.Commit

/-- The loop of lines 125-146: `n` iterations. -/
def benchLoop {σ : Type} (target : DeliveryTarget σ) (msgMeta : MsgMetadata) (header : Header)
    (body : MemoryBuffer) (sender : GoString) (recipientTemplates : List GoString) :
    Nat → Run σ → Run σ
  | 0, st => st
  | n + 1, st =>
      benchLoop target msgMeta header body sender recipientTemplates n
        (iteration target msgMeta header body sender recipientTemplates st)

/-- Function BenchDelivery, run on a target in state `s`.  The calls
ReportAllocs and ResetTimer only concern the measurement. -/
def BenchDelivery {σ : Type} (sha1Sum : GoString → List Nat) (b : B) (target : DeliveryTarget σ)
    (s : σ) (sender : GoString) (recipientTemplates : List GoString) : Run σ :=
  let (msgMeta, header, body) := RandomMsg sha1Sum b
  benchLoop target msgMeta header body sender recipientTemplates b.N
    { target := s, log := [], failed := none }

/-- The calls of a run, without their results. -/
def Run.calls {σ : Type} (st : Run σ) : List Call := st.log.map Prod.fst

/-- A target all of whose calls succeed. -/
def DeliveryTarget.AllSucceed {σ : Type} (t : DeliveryTarget σ) : Prop :=
  (∀ s m f, (t.Start s m f).1 = none) ∧ (∀ s r, (t.AddRcpt s r).1 = none) ∧
  (∀ s h b, (t.Body s h b).1 = none) ∧ (∀ s, (t.Commit s).1 = none)

/-- A target without state that accepts everything. -/
def acceptAll : DeliveryTarget Unit where
  Start := fun _ _ _ => (none, ())
  AddRcpt := fun _ _ => (none, ())
  Body := fun _ _ _ => (none, ())
  Abort := fun _ => (none, ())
  Commit := fun _ => (none, ())

/-- A target that accepts recipients and fails on Body. -/
def failBody : DeliveryTarget Unit where
  Start := fun _ _ _ => (none, ())
  AddRcpt := fun _ _ => (none, ())
  Body := fun _ _ _ => (some "disk full".toList, ())
  Abort := fun _ => (none, ())
  Commit := fun _ => (none, ())

/-- A target that rejects the recipient bob@b and accepts every other one. -/
def rejectBob : DeliveryTarget Unit where
  Start := fun _ _ _ => (none, ())
  AddRcpt := fun _ r => (if r = "bob@b".toList then some "no such mailbox".toList else none, ())
  Body := fun _ _ _ => (none, ())
  Abort := fun _ => (none, ())
  Commit := fun _ => (none, ())

/-! ## Specification-side definitions -/

/-- The recipient generated at position `i` of the template list (line 132). -/
def rcptAt (i : Nat) (rcptTemplate : GoString) : GoString :=
  Replace rcptTemplate "X".toList (Itoa i) (-1)

/-- The call sequence of one transaction as the specification words it: Start,
then one AddRcpt per template in list order, then Body, then Commit. -/
def specIteration (msgMeta : MsgMetadata) (header : Header) (body : MemoryBuffer)
    (sender : GoString) (recipientTemplates : List GoString) : List Call :=
  Call.Start msgMeta sender ::
    (recipientTemplates.enum.map (fun p => Call.AddRcpt (rcptAt p.1 p.2)) ++
      [Call.Body header body, Call.Commit])

/-- Results are consistent with the fail-fast driver: either nothing failed and
every logged call returned nil, or the last logged call returned the error the
run failed with and every earlier call returned nil. -/
def Run.Sound {σ : Type} (st : Run σ) : Prop :=
  (st.failed = none ∧ ∀ ev ∈ st.log, ev.2 = none) ∨
  (∃ pre c e, st.log = pre ++ [(c, some e)] ∧ (∀ ev ∈ pre, ev.2 = none) ∧ st.failed = some e)

/-- A piece of the driver `f` performs the calls `calls`: a run that has failed
is left as it is; otherwise the calls made are an initial part of `calls`, all
of it unless the run fails. -/
def Performs {σ : Type} (f : Run σ → Run σ) (calls : List Call) : Prop :=
  ∀ st : Run σ, (st.failed ≠ none → f st = st) ∧
    ∃ m, (f st).calls = st.calls ++ calls.take m ∧ ((f st).failed = none → calls.length ≤ m)

/-- A piece of the driver keeps a run going when the target never fails. -/
def KeepsGoing {σ : Type} (f : Run σ → Run σ) : Prop :=
  ∀ st : Run σ, st.failed = none → (f st).failed = none

/-- A sequence of SetStatus calls, made in list order. -/
def recordAll (m : multipleErrs) (calls : List (GoString × error)) : multipleErrs :=
  calls.foldl (fun acc c => acc.SetStatus c.1 c.2) m

/-- A status map with an earlier rejection of a@x and an acceptance of c@x. -/
def sampleStatus : multipleErrs :=
  ((∅ : multipleErrs).SetStatus "a@x".toList (some "mailbox full".toList)).SetStatus
    "c@x".toList none

/-- The nine fields of testHeaderString, in the order of its lines. -/
def testHeaderFields : List Field :=
  [⟨"Content-Type".toList, "multipart/mixed; boundary=message-boundary".toList⟩,
   ⟨"Date".toList, "Sat, 19 Jun 2016 12:00:00 +0900".toList⟩,
   ⟨"From".toList, "Mitsuha Miyamizu <mitsuha.miyamizu@example.org>".toList⟩,
   ⟨"Reply-To".toList, "Mitsuha Miyamizu <mitsuha.miyamizu+replyto@example.org>".toList⟩,
   ⟨"Message-Id".toList, "42@example.org".toList⟩,
   ⟨"MIME-Version".toList, "1.0".toList⟩,
   ⟨"Content-Transfer-Encoding".toList, "8but".toList⟩,
   ⟨"Subject".toList, "Your Name.".toList⟩,
   ⟨"To".toList, "Taki Tachibana <taki.tachibana@example.org>".toList⟩]

/-- A field with its name folded to lower case, for case-insensitive
comparison of names. -/
def Field.folded (f : Field) : GoString × GoString := (f.name.map Char.toLower, f.value)

/-- A stand-in for the SHA-1 function in concrete runs. -/
def zeroSum : GoString → List Nat := fun _ => List.replicate 20 0

/-! ## Theorems -/

example : Itoa 0 = "0".toList := by decide
example : Itoa 1234 = "1234".toList := by decide
example : Itoa (-56) = "-56".toList := by decide
example : Replace "aXbXX".toList "X".toList (Itoa 12) (-1) = "a12b1212".toList := by decide
example : Replace "aXbXX".toList "X".toList (Itoa 12) 2 = "a12b12X".toList := by decide
example : Replace "abcabc".toList "bc".toList "-".toList (-1) = "a-a-".toList := by decide
example : Replace "ab".toList [] "-".toList (-1) = "-a-b-".toList := by decide
example : Replace "bob@b".toList "X".toList (Itoa 0) (-1) = "bob@b".toList := by decide

/-! ### Decimal formatting -/

theorem digitByte_toNat {d : Nat} (h : d < 10) : (digitByte d).toNat = 48 + d := by
  interval_cases d <;> decide

theorem digitByte_ne_X {d : Nat} (h : d < 10) : digitByte d ≠ 'X' := by
  interval_cases d <;> decide

theorem digitByte_ne_minus {d : Nat} (h : d < 10) : digitByte d ≠ '-' := by
  interval_cases d <;> decide

theorem formatBits_append (fuel : Nat) : ∀ (u : Nat) (acc : GoString), u ≤ fuel →
    formatBits fuel u acc = formatBits fuel u [] ++ acc := by
  induction fuel with
  | zero => intro u acc _; simp [formatBits]
  | succ f ih =>
    intro u acc hu
    unfold formatBits
    by_cases h : 10 ≤ u
    · have hf : u / 10 ≤ f := by omega
      simp only [h, if_true]
      rw [ih _ (digitByte (u % 10) :: acc) hf, ih _ [digitByte (u % 10)] hf]
      simp
    · simp [h]

theorem formatBits_fuel (fuel : Nat) : ∀ (g u : Nat), u ≤ fuel → u ≤ g →
    formatBits fuel u [] = formatBits g u [] := by
  induction fuel with
  | zero =>
    intro g u hu _
    have : u = 0 := by omega
    subst this
    cases g <;> simp [formatBits]
  | succ f ih =>
    intro g u hu hg
    cases g with
    | zero =>
      have : u = 0 := by omega
      subst this
      simp [formatBits]
    | succ g =>
      unfold formatBits
      by_cases h : 10 ≤ u
      · have hf : u / 10 ≤ f := by omega
        have hg2 : u / 10 ≤ g := by omega
        simp only [h, if_true]
        rw [formatBits_append f _ _ hf, formatBits_append g _ _ hg2, ih g _ hf hg2]
      · simp [h]

theorem utoa_small {u : Nat} (h : u < 10) : utoa u = [digitByte u] := by
  unfold utoa
  cases u with
  | zero => simp [formatBits]
  | succ n =>
    unfold formatBits
    have : ¬ 10 ≤ n + 1 := by omega
    simp [this]

theorem utoa_step {u : Nat} (h : 10 ≤ u) : utoa u = utoa (u / 10) ++ [digitByte (u % 10)] := by
  unfold utoa
  obtain ⟨n, rfl⟩ : ∃ n, u = n + 1 := ⟨u - 1, by omega⟩
  have hf : (n + 1) / 10 ≤ n := by omega
  conv_lhs => unfold formatBits
  simp only [h, if_true]
  rw [formatBits_append n _ _ hf, formatBits_fuel n ((n + 1) / 10) _ hf le_rfl]

theorem utoa_ne_nil (u : Nat) : utoa u ≠ [] := by
  by_cases h : 10 ≤ u
  · rw [utoa_step h]; simp
  · rw [utoa_small (by omega)]; simp

/-- Every byte of a decimal representation is a decimal digit. -/
theorem utoa_digits (u : Nat) : ∀ c ∈ utoa u, ∃ d, d < 10 ∧ c = digitByte d := by
  induction u using Nat.strong_induction_on with
  | _ u ih =>
    intro c hc
    by_cases h : 10 ≤ u
    · rw [utoa_step h] at hc
      rcases List.mem_append.1 hc with hc | hc
      · exact ih (u / 10) (by omega) c hc
      · exact ⟨u % 10, by omega, by simpa using hc⟩
    · rw [utoa_small (by omega)] at hc
      exact ⟨u, by omega, by simpa using hc⟩

theorem digitByte_inj {a b : Nat} (ha : a < 10) (hb : b < 10)
    (h : digitByte a = digitByte b) : a = b := by
  have := congrArg Char.toNat h
  rw [digitByte_toNat ha, digitByte_toNat hb] at this
  omega

/-- Decimal formatting is injective. -/
theorem utoa_inj : ∀ (u v : Nat), utoa u = utoa v → u = v := by
  intro u
  induction u using Nat.strong_induction_on with
  | _ u ih =>
    intro v huv
    by_cases hu : 10 ≤ u <;> by_cases hv : 10 ≤ v
    · rw [utoa_step hu, utoa_step hv] at huv
      obtain ⟨h1, h2⟩ := List.append_inj' huv rfl
      have hq := ih (u / 10) (by omega) (v / 10) h1
      have hr : u % 10 = v % 10 :=
        digitByte_inj (by omega) (by omega) (by simpa using h2)
      omega
    · rw [utoa_step hu, utoa_small (u := v) (by omega)] at huv
      have := congrArg List.length huv
      have hne := utoa_ne_nil (u / 10)
      have hpos : 0 < (utoa (u / 10)).length := List.length_pos.2 hne
      simp only [List.length_append, List.length_singleton, List.length_cons,
        List.length_nil] at this
      omega
    · rw [utoa_step hv, utoa_small (u := u) (by omega)] at huv
      have := congrArg List.length huv
      have hne := utoa_ne_nil (v / 10)
      have hpos : 0 < (utoa (v / 10)).length := List.length_pos.2 hne
      simp only [List.length_append, List.length_singleton, List.length_cons,
        List.length_nil] at this
      omega
    · rw [utoa_small (u := u) (by omega), utoa_small (u := v) (by omega)] at huv
      exact digitByte_inj (by omega) (by omega) (by simpa using huv)

theorem Itoa_natCast (n : Nat) : Itoa (n : Int) = utoa n := by
  unfold Itoa
  have : ¬ ((n : Int) < 0) := by omega
  simp [this]

/-! ### Replacement of a one-byte pattern -/

theorem Replace_nil (x : Char) (new : GoString) : Replace [] [x] new (-1) = [] := by
  unfold Replace
  by_cases h : [x] = new <;> simp [h, replaceScan]

theorem Replace_cons (x c : Char) (cs new : GoString) :
    Replace (c :: cs) [x] new (-1) =
      (if c = x then new else [c]) ++ Replace cs [x] new (-1) := by
  unfold Replace
  by_cases h : [x] = new
  · subst h
    by_cases hc : c = x <;> simp [hc]
  · by_cases hc : c = x
    · subst hc
      simp [h, replaceScan, List.isPrefixOf]
    · have hc2 : ¬ x = c := fun e => hc e.symm
      simp [h, hc, hc2, replaceScan, List.isPrefixOf]

/-- A template without the pattern byte is returned unchanged. -/
theorem Replace_of_not_mem (x : Char) (new : GoString) :
    ∀ (t : GoString), x ∉ t → Replace t [x] new (-1) = t := by
  intro t
  induction t with
  | nil => intro _; exact Replace_nil x new
  | cons c cs ih =>
    intro h
    have hc : ¬ c = x := fun e => h (by simp [e])
    have hcs : x ∉ cs := fun e => h (List.mem_cons_of_mem _ e)
    rw [Replace_cons, ih hcs]
    simp [hc]

/-- The pattern byte does not survive when the replacement is free of it. -/
theorem not_mem_Replace (x : Char) (new : GoString) (hnew : x ∉ new) :
    ∀ (t : GoString), x ∉ Replace t [x] new (-1) := by
  intro t
  induction t with
  | nil => rw [Replace_nil]; simp
  | cons c cs ih =>
    rw [Replace_cons]
    by_cases hc : c = x
    · simp only [hc, if_true, List.mem_append, not_or]
      exact ⟨hnew, ih⟩
    · have hxc : ¬ x = c := fun e => hc e.symm
      simp only [hc, if_false, List.mem_append, not_or, List.mem_singleton]
      exact ⟨hxc, ih⟩

theorem Replace_length_mono (x : Char) (a b : GoString) (hab : a.length ≤ b.length) :
    ∀ (t : GoString), (Replace t [x] a (-1)).length ≤ (Replace t [x] b (-1)).length := by
  intro t
  induction t with
  | nil => simp [Replace_nil]
  | cons c cs ih =>
    rw [Replace_cons, Replace_cons]
    by_cases hc : c = x
    · simp only [hc, if_true, List.length_append]; omega
    · simp only [hc, if_false, List.length_append]; omega

/-- Replacement of a byte that occurs in the template is injective in the
replacing string. -/
theorem Replace_inj (x : Char) (a b : GoString) :
    ∀ (t : GoString), x ∈ t → Replace t [x] a (-1) = Replace t [x] b (-1) → a = b := by
  intro t
  induction t with
  | nil => intro h; simp at h
  | cons c cs ih =>
    intro hmem heq
    rw [Replace_cons, Replace_cons] at heq
    by_cases hc : c = x
    · simp only [hc, if_true] at heq
      have hlen := congrArg List.length heq
      simp only [List.length_append] at hlen
      have hl : a.length = b.length := by
        rcases Nat.lt_trichotomy a.length b.length with h | h | h
        · have := Replace_length_mono x a b (by omega) cs
          omega
        · exact h
        · have := Replace_length_mono x b a (by omega) cs
          omega
      exact (List.append_inj heq hl).1
    · simp only [hc, if_false, List.singleton_append, List.cons.injEq, true_and] at heq
      have hx : x ∈ cs := by
        rcases List.mem_cons.1 hmem with h | h
        · exact absurd h.symm hc
        · exact h
      exact ih hx heq

theorem X_not_mem_utoa (u : Nat) : 'X' ∉ utoa u := by
  intro h
  obtain ⟨d, hd, hX⟩ := utoa_digits u _ h
  exact digitByte_ne_X hd hX.symm

/-- Function ReadHeader reads the nine fields of testHeaderString and leaves what
follows the empty line. -/
theorem ReadHeader_testHeaderString (x : GoString) :
    ReadHeader ⟨testHeaderString ++ x⟩ =
      ((⟨testHeaderFields⟩, none), ⟨x⟩) := by
  rfl
/-! ### Reading a stream to its end -/

theorem readAllLoop_eq (fuel : Nat) : ∀ (r : Reader) (acc : GoString),
    r.unread.length + 1 ≤ fuel → readAllLoop fuel r acc = (acc ++ r.unread, ⟨[]⟩) := by
  induction fuel with
  | zero => intro r acc h; omega
  | succ f ih =>
    intro r acc h
    obtain ⟨u⟩ := r
    cases u with
    | nil => simp [readAllLoop, Reader.Read]
    | cons c cs =>
      have hlen : (List.drop MinRead (c :: cs)).length + 1 ≤ f := by
        simp only [List.length_drop, List.length_cons, MinRead] at h ⊢
        omega
      have hstep : readAllLoop (f + 1) ⟨c :: cs⟩ acc =
          readAllLoop f ⟨List.drop MinRead (c :: cs)⟩ (acc ++ List.take MinRead (c :: cs)) := by
        simp [readAllLoop, Reader.Read]
      have hrec := ih ⟨List.drop MinRead (c :: cs)⟩ (acc ++ List.take MinRead (c :: cs)) hlen
      rw [hstep, hrec]
      simp [List.append_assoc, List.take_append_drop]

/-- Function ReadAll returns everything that was unread and leaves the reader
at end of input. -/
theorem ReadAll_eq (r : Reader) : ReadAll r = (r.unread, ⟨[]⟩) := by
  unfold ReadAll
  rw [readAllLoop_eq _ r [] le_rfl]
  simp

/-! ### RandomMsg -/

/-- The three results of RandomMsg. -/
theorem RandomMsg_eq (sha1Sum : GoString → List Nat) (b : B) :
    RandomMsg sha1Sum b =
      ({ DontTraceSender := true, ID := EncodeToString (sha1Sum b.Name) },
       addExtraFields ExtraMessageHeaderFields 0 (ReadHeader ⟨testHeaderString⟩).1.1,
       { Slice := testBodyString ++ Repeat 'A' MessageBodySize }) := by
  have h0 := ReadHeader_testHeaderString []
  rw [List.append_nil] at h0
  have hmail : testMailString = testHeaderString ++ (testBodyString ++ Repeat 'A' MessageBodySize) := by
    unfold testMailString
    rw [List.append_assoc]
  simp only [RandomMsg]
  rw [hmail]
  generalize testBodyString ++ Repeat 'A' MessageBodySize = tail
  simp only [ReadHeader_testHeaderString, ReadAll_eq, h0]

example : (ReadAll ⟨"abc".toList⟩).1 = "abc".toList := by decide
example : EncodeToString [0, 255, 16] = "00ff10".toList := by decide
example : parseField "Subject: Your Name.".toList = some ⟨"Subject".toList, "Your Name.".toList⟩ := by decide

/-! ### The driver: calls made -/

theorem call_of_failed {σ : Type} (st : Run σ) (c : Call) (m : σ → error × σ)
    (h : st.failed ≠ none) : st.call c m = st := by
  unfold Run.call
  cases hf : st.failed with
  | none => exact absurd hf h
  | some e => rfl

theorem call_of_running {σ : Type} (st : Run σ) (c : Call) (m : σ → error × σ)
    (h : st.failed = none) :
    st.call c m =
      { target := (m st.target).2, log := st.log ++ [(c, (m st.target).1)],
        failed := (m st.target).1 } := by
  unfold Run.call
  rw [h]

theorem performs_comp {σ : Type} {f g : Run σ → Run σ} {l1 l2 : List Call}
    (hf : Performs f l1) (hg : Performs g l2) : Performs (fun st => g (f st)) (l1 ++ l2) := by
  intro st
  refine ⟨fun h => ?_, ?_⟩
  · show g (f st) = st
    rw [(hf st).1 h]
    exact (hg st).1 h
  · obtain ⟨m1, h1, h1full⟩ := (hf st).2
    by_cases hfail : (f st).failed = none
    · obtain ⟨m2, h2, h2full⟩ := (hg (f st)).2
      have hm1 := h1full hfail
      refine ⟨l1.length + m2, ?_, fun h => ?_⟩
      · show (g (f st)).calls = _
        rw [h2, h1, List.take_of_length_le hm1, List.append_assoc]
        congr 1
        rw [List.take_append]
      · have := h2full h
        simp only [List.length_append]
        omega
    · refine ⟨min m1 l1.length, ?_, fun h => ?_⟩
      · show (g (f st)).calls = _
        rw [(hg (f st)).1 hfail, h1]
        congr 1
        rw [List.take_append_of_le_length (Nat.min_le_right _ _)]
        rcases Nat.le_total m1 l1.length with hle | hle
        · rw [Nat.min_eq_left hle]
        · rw [Nat.min_eq_right hle, List.take_of_length_le hle, List.take_length]
      · have hgf : g (f st) = f st := (hg (f st)).1 hfail
        simp only [hgf] at h
        exact absurd h hfail

theorem performs_id {σ : Type} : Performs (fun st : Run σ => st) [] := by
  intro st
  exact ⟨fun _ => rfl, 0, by simp, fun _ => by simp⟩

theorem performs_call {σ : Type} (c : Call) (m : σ → error × σ) :
    Performs (fun st : Run σ => st.call c m) [c] := by
  intro st
  refine ⟨fun h => call_of_failed st c m h, ?_⟩
  cases hf : st.failed with
  | some e =>
    have hst : st.call c m = st := call_of_failed st c m (by simp [hf])
    refine ⟨0, ?_, fun h => ?_⟩
    · show (st.call c m).calls = _
      rw [hst]; simp
    · have h2 : (st.call c m).failed = none := h
      rw [hst, hf] at h2
      cases h2
  | none =>
    refine ⟨1, ?_, fun _ => by simp⟩
    show (st.call c m).calls = _
    rw [call_of_running st c m hf]
    simp [Run.calls]

theorem performs_addRcpts {σ : Type} (target : DeliveryTarget σ) :
    ∀ (ts : List GoString) (i : Nat),
      Performs (addRcpts target ts i)
        ((ts.enumFrom i).map (fun p => Call.AddRcpt (rcptAt p.1 p.2))) := by
  intro ts
  induction ts with
  | nil => intro i; exact performs_id
  | cons x rest ih =>
    intro i
    exact performs_comp
      (performs_call (Call.AddRcpt (rcptAt i x)) (fun s => target.AddRcpt s (rcptAt i x)))
      (ih (i + 1))

theorem performs_iteration {σ : Type} (target : DeliveryTarget σ) (msgMeta : MsgMetadata)
    (header : Header) (body : MemoryBuffer) (sender : GoString) (ts : List GoString) :
    Performs (iteration target msgMeta header body sender ts)
      (specIteration msgMeta header body sender ts) :=
  performs_comp (performs_call _ _)
    (performs_comp (performs_addRcpts target ts 0)
      (performs_comp (performs_call _ _) (performs_call _ _)))

theorem performs_benchLoop {σ : Type} (target : DeliveryTarget σ) (msgMeta : MsgMetadata)
    (header : Header) (body : MemoryBuffer) (sender : GoString) (ts : List GoString) :
    ∀ n : Nat, Performs (benchLoop target msgMeta header body sender ts n)
      (List.replicate n (specIteration msgMeta header body sender ts)).flatten := by
  intro n
  induction n with
  | zero => exact performs_id
  | succ n ih =>
    have h := performs_comp (performs_iteration target msgMeta header body sender ts) ih
    intro st
    exact h st

/-! ### The driver: results -/

theorem sound_call {σ : Type} (st : Run σ) (c : Call) (m : σ → error × σ) (h : st.Sound) :
    (st.call c m).Sound := by
  cases hf : st.failed with
  | some e => rw [call_of_failed st c m (by simp [hf])]; exact h
  | none =>
    rw [call_of_running st c m hf]
    have hall : ∀ ev ∈ st.log, ev.2 = none := by
      rcases h with ⟨_, h⟩ | ⟨_, _, e, _, _, h⟩
      · exact h
      · rw [hf] at h; cases h
    cases hr : (m st.target).1 with
    | none =>
      left
      refine ⟨rfl, ?_⟩
      intro ev hev
      rcases List.mem_append.1 hev with h1 | h1
      · exact hall ev h1
      · simp only [List.mem_singleton] at h1
        rw [h1]
    | some e =>
      right
      exact ⟨st.log, c, e, rfl, hall, rfl⟩

theorem sound_addRcpts {σ : Type} (target : DeliveryTarget σ) :
    ∀ (ts : List GoString) (i : Nat) (st : Run σ), st.Sound → (addRcpts target ts i st).Sound := by
  intro ts
  induction ts with
  | nil => intro i st h; exact h
  | cons x rest ih =>
    intro i st h
    exact ih (i + 1) _ (sound_call st _ _ h)

theorem sound_iteration {σ : Type} (target : DeliveryTarget σ) (msgMeta : MsgMetadata)
    (header : Header) (body : MemoryBuffer) (sender : GoString) (ts : List GoString)
    (st : Run σ) (h : st.Sound) : (iteration target msgMeta header body sender ts st).Sound :=
  sound_call _ _ _ (sound_call _ _ _ (sound_addRcpts target ts 0 _ (sound_call st _ _ h)))

theorem sound_benchLoop {σ : Type} (target : DeliveryTarget σ) (msgMeta : MsgMetadata)
    (header : Header) (body : MemoryBuffer) (sender : GoString) (ts : List GoString) :
    ∀ (n : Nat) (st : Run σ), st.Sound →
      (benchLoop target msgMeta header body sender ts n st).Sound := by
  intro n
  induction n with
  | zero => intro st h; exact h
  | succ n ih =>
    intro st h
    exact ih _ (sound_iteration target msgMeta header body sender ts st h)

/-- In a sound log a call that returned an error is the last one, and its error
is the one the run failed with. -/
theorem sound_error_last {σ : Type} (st : Run σ) (h : st.Sound) (pre post : List (Call × error))
    (c : Call) (e : GoString) (hlog : st.log = pre ++ (c, some e) :: post) :
    post = [] ∧ st.failed = some e := by
  have hmem : (c, some e) ∈ st.log := by rw [hlog]; simp
  rcases h with ⟨_, hall⟩ | ⟨pre2, c2, e2, hlog2, hall, hfail⟩
  · have := hall _ hmem
    cases this
  · have hpost : post = [] := by
      by_contra hne
      obtain ⟨init, z, hz⟩ : ∃ init z, post = init ++ [z] :=
        ⟨post.dropLast, post.getLast hne, (List.dropLast_append_getLast hne).symm⟩
      rw [hlog2, hz] at hlog
      have heq : pre2 ++ [(c2, some e2)] = (pre ++ (c, some e) :: init) ++ [z] := by
        rw [hlog]; simp
      have hpre := (List.append_inj' heq rfl).1
      have : (c, some e) ∈ pre2 := by rw [hpre]; simp
      have := hall _ this
      cases this
    subst hpost
    rw [hlog2] at hlog
    have heq : pre2 ++ [(c2, some e2)] = pre ++ [(c, some e)] := hlog
    have hlast := (List.append_inj' heq rfl).2
    simp only [List.cons.injEq, Prod.mk.injEq, Option.some.injEq, and_true] at hlast
    exact ⟨rfl, by rw [hfail, hlast.2]⟩

/-! ### The driver: a target that never fails -/

theorem keepsGoing_call {σ : Type} (c : Call) (m : σ → error × σ) (hm : ∀ s, (m s).1 = none) :
    KeepsGoing (fun st : Run σ => st.call c m) := by
  intro st h
  show (st.call c m).failed = none
  rw [call_of_running st c m h]
  exact hm _

theorem keepsGoing_addRcpts {σ : Type} (target : DeliveryTarget σ) (hok : target.AllSucceed) :
    ∀ (ts : List GoString) (i : Nat), KeepsGoing (addRcpts target ts i) := by
  intro ts
  induction ts with
  | nil => intro i st h; exact h
  | cons x rest ih =>
    intro i st h
    exact ih (i + 1) _ (keepsGoing_call _ _ (fun s => hok.2.1 s _) st h)

theorem keepsGoing_iteration {σ : Type} (target : DeliveryTarget σ) (hok : target.AllSucceed)
    (msgMeta : MsgMetadata) (header : Header) (body : MemoryBuffer) (sender : GoString)
    (ts : List GoString) : KeepsGoing (iteration target msgMeta header body sender ts) := by
  intro st h
  have h1 := keepsGoing_call (Call.Start msgMeta sender) (fun s => target.Start s msgMeta sender)
    (fun s => hok.1 s _ _) st h
  have h2 := keepsGoing_addRcpts target hok ts 0 _ h1
  have h3 := keepsGoing_call (Call.Body header body) (fun s => target.Body s header body)
    (fun s => hok.2.2.1 s _ _) _ h2
  exact keepsGoing_call Call.Commit target.Commit hok.2.2.2 _ h3

theorem keepsGoing_benchLoop {σ : Type} (target : DeliveryTarget σ) (hok : target.AllSucceed)
    (msgMeta : MsgMetadata) (header : Header) (body : MemoryBuffer) (sender : GoString)
    (ts : List GoString) :
    ∀ n : Nat, KeepsGoing (benchLoop target msgMeta header body sender ts n) := by
  intro n
  induction n with
  | zero => intro st h; exact h
  | succ n ih =>
    intro st h
    exact ih _ (keepsGoing_iteration target hok msgMeta header body sender ts st h)

/-! ### BenchDelivery -/

theorem BenchDelivery_eq {σ : Type} (sha1Sum : GoString → List Nat) (b : B)
    (target : DeliveryTarget σ) (s : σ) (sender : GoString) (ts : List GoString) :
    BenchDelivery sha1Sum b target s sender ts =
      benchLoop target (RandomMsg sha1Sum b).1 (RandomMsg sha1Sum b).2.1 (RandomMsg sha1Sum b).2.2
        sender ts b.N { target := s, log := [], failed := none } := rfl

theorem BenchDelivery_sound {σ : Type} (sha1Sum : GoString → List Nat) (b : B)
    (target : DeliveryTarget σ) (s : σ) (sender : GoString) (ts : List GoString) :
    (BenchDelivery sha1Sum b target s sender ts).Sound := by
  rw [BenchDelivery_eq]
  apply sound_benchLoop
  left
  exact ⟨rfl, by simp⟩

/-- The calls of any run are an initial part of the repeated call sequence. -/
theorem BenchDelivery_calls_take {σ : Type} (sha1Sum : GoString → List Nat) (b : B)
    (target : DeliveryTarget σ) (s : σ) (sender : GoString) (ts : List GoString) :
    ∃ m, (BenchDelivery sha1Sum b target s sender ts).calls =
        (List.replicate b.N (specIteration (RandomMsg sha1Sum b).1 (RandomMsg sha1Sum b).2.1
          (RandomMsg sha1Sum b).2.2 sender ts)).flatten.take m ∧
      ((BenchDelivery sha1Sum b target s sender ts).failed = none →
        (List.replicate b.N (specIteration (RandomMsg sha1Sum b).1 (RandomMsg sha1Sum b).2.1
          (RandomMsg sha1Sum b).2.2 sender ts)).flatten.length ≤ m) := by
  rw [BenchDelivery_eq]
  obtain ⟨m, h1, h2⟩ := (performs_benchLoop target (RandomMsg sha1Sum b).1
    (RandomMsg sha1Sum b).2.1 (RandomMsg sha1Sum b).2.2 sender ts b.N
    { target := s, log := [], failed := none }).2
  refine ⟨m, ?_, h2⟩
  rw [h1]
  simp [Run.calls]

/-- With a target that never fails the run completes and makes all the calls. -/
theorem BenchDelivery_of_allSucceed {σ : Type} (sha1Sum : GoString → List Nat) (b : B)
    (target : DeliveryTarget σ) (hok : target.AllSucceed) (s : σ) (sender : GoString)
    (ts : List GoString) :
    (BenchDelivery sha1Sum b target s sender ts).calls =
        (List.replicate b.N (specIteration (RandomMsg sha1Sum b).1 (RandomMsg sha1Sum b).2.1
          (RandomMsg sha1Sum b).2.2 sender ts)).flatten ∧
      (BenchDelivery sha1Sum b target s sender ts).failed = none := by
  have hfail : (BenchDelivery sha1Sum b target s sender ts).failed = none := by
    rw [BenchDelivery_eq]
    exact keepsGoing_benchLoop target hok _ _ _ sender ts b.N _ rfl
  obtain ⟨m, h1, h2⟩ := BenchDelivery_calls_take sha1Sum b target s sender ts
  refine ⟨?_, hfail⟩
  rw [h1, List.take_of_length_le (h2 hfail)]

theorem acceptAll_allSucceed : acceptAll.AllSucceed :=
  ⟨fun _ _ _ => rfl, fun _ _ => rfl, fun _ _ _ => rfl, fun _ => rfl⟩

/-! ## The claims -/

/-- C1: for every delivery target whose calls all succeed, every sender, every
list of recipient templates and every iteration count N, BenchDelivery makes
exactly N repetitions of the sequence Start(meta, sender), one AddRcpt per
template in list order, one Body(header, body), one Commit; so within a
transaction no Body precedes an AddRcpt and Commit is the last call.  The run
does not fail and every call returned nil. -/
theorem C1_call_sequence {σ : Type} (target : DeliveryTarget σ) (hok : target.AllSucceed)
    (sha1Sum : GoString → List Nat) (b : B) (s : σ) (sender : GoString)
    (recipientTemplates : List GoString) :
    (BenchDelivery sha1Sum b target s sender recipientTemplates).calls =
        (List.replicate b.N
          (Call.Start (RandomMsg sha1Sum b).1 sender ::
            (recipientTemplates.enum.map
                (fun p => Call.AddRcpt (Replace p.2 "X".toList (Itoa p.1) (-1))) ++
              [Call.Body (RandomMsg sha1Sum b).2.1 (RandomMsg sha1Sum b).2.2,
               Call.Commit]))).flatten ∧
      (BenchDelivery sha1Sum b target s sender recipientTemplates).failed = none ∧
      ∀ ev ∈ (BenchDelivery sha1Sum b target s sender recipientTemplates).log, ev.2 = none := by
  obtain ⟨h1, h2⟩ := BenchDelivery_of_allSucceed sha1Sum b target hok s sender recipientTemplates
  refine ⟨h1, h2, ?_⟩
  rcases BenchDelivery_sound sha1Sum b target s sender recipientTemplates with
    ⟨_, hall⟩ | ⟨_, _, e, _, _, hf⟩
  · exact hall
  · rw [h2] at hf; cases hf

/-- Witness of C1: three iterations for two templates on a target that accepts
everything. -/
theorem C1_call_sequence_witness :
    acceptAll.AllSucceed ∧
    (BenchDelivery zeroSum ⟨3, "BenchmarkDelivery".toList⟩ acceptAll () "alice@a".toList
        ["bob@b".toList, "userX@c".toList]).calls =
      (List.replicate 3
        (Call.Start (RandomMsg zeroSum ⟨3, "BenchmarkDelivery".toList⟩).1 "alice@a".toList ::
          ((["bob@b".toList, "userX@c".toList].enum.map
              (fun p => Call.AddRcpt (Replace p.2 "X".toList (Itoa p.1) (-1)))) ++
            [Call.Body (RandomMsg zeroSum ⟨3, "BenchmarkDelivery".toList⟩).2.1
               (RandomMsg zeroSum ⟨3, "BenchmarkDelivery".toList⟩).2.2,
             Call.Commit]))).flatten :=
  ⟨acceptAll_allSucceed,
    (C1_call_sequence acceptAll acceptAll_allSucceed zeroSum ⟨3, "BenchmarkDelivery".toList⟩ ()
      "alice@a".toList ["bob@b".toList, "userX@c".toList]).1⟩

/-- C4: a failure of Body is fatal.  For every target, if some Body call of the
run returned an error, the benchmark failed with that error and that Body call
is the last call of the run: no Commit on that transaction and no later Start,
AddRcpt, Body or Commit. -/
theorem C4_body_failure_fatal {σ : Type} (target : DeliveryTarget σ)
    (sha1Sum : GoString → List Nat) (b : B) (s : σ) (sender : GoString)
    (recipientTemplates : List GoString) (pre post : List (Call × error))
    (header : Header) (body : MemoryBuffer) (err : GoString)
    (h : (BenchDelivery sha1Sum b target s sender recipientTemplates).log =
      pre ++ (Call.Body header body, some err) :: post) :
    (BenchDelivery sha1Sum b target s sender recipientTemplates).failed = some err ∧
      post = [] := by
  have := sound_error_last _ (BenchDelivery_sound sha1Sum b target s sender recipientTemplates)
    pre post _ err h
  exact ⟨this.2, this.1⟩

/-- Witness of C4: on a target whose Body fails, the run of two iterations stops
at the first Body call. -/
theorem C4_body_failure_fatal_witness :
    (BenchDelivery zeroSum ⟨2, "BenchmarkDelivery".toList⟩ failBody () "alice@a".toList
        ["bob@b".toList]).log =
      [(Call.Start (RandomMsg zeroSum ⟨2, "BenchmarkDelivery".toList⟩).1 "alice@a".toList, none),
       (Call.AddRcpt "bob@b".toList, none)] ++
      (Call.Body (RandomMsg zeroSum ⟨2, "BenchmarkDelivery".toList⟩).2.1
          (RandomMsg zeroSum ⟨2, "BenchmarkDelivery".toList⟩).2.2, some "disk full".toList) :: [] ∧
    ((BenchDelivery zeroSum ⟨2, "BenchmarkDelivery".toList⟩ failBody () "alice@a".toList
        ["bob@b".toList]).failed = some "disk full".toList ∧ ([] : List (Call × error)) = []) :=
  ⟨rfl, C4_body_failure_fatal failBody zeroSum ⟨2, "BenchmarkDelivery".toList⟩ () "alice@a".toList
    ["bob@b".toList] _ [] _ _ "disk full".toList rfl⟩

/-- C3, as stated, fails: on a target that rejects bob@b, the run for the
templates bob@b, carol@c stops at the rejected AddRcpt.  AddRcpt is not called
for carol@c, and neither Body nor Commit is called. -/
theorem C3_counterexample :
    (BenchDelivery zeroSum ⟨1, "BenchmarkDelivery".toList⟩ rejectBob () "alice@a".toList
        ["bob@b".toList, "carol@c".toList]).log =
      [(Call.Start (RandomMsg zeroSum ⟨1, "BenchmarkDelivery".toList⟩).1 "alice@a".toList, none),
       (Call.AddRcpt "bob@b".toList, some "no such mailbox".toList)] ∧
    Call.AddRcpt "carol@c".toList ∉
      (BenchDelivery zeroSum ⟨1, "BenchmarkDelivery".toList⟩ rejectBob () "alice@a".toList
        ["bob@b".toList, "carol@c".toList]).calls ∧
    Call.Body (RandomMsg zeroSum ⟨1, "BenchmarkDelivery".toList⟩).2.1
        (RandomMsg zeroSum ⟨1, "BenchmarkDelivery".toList⟩).2.2 ∉
      (BenchDelivery zeroSum ⟨1, "BenchmarkDelivery".toList⟩ rejectBob () "alice@a".toList
        ["bob@b".toList, "carol@c".toList]).calls ∧
    Call.Commit ∉
      (BenchDelivery zeroSum ⟨1, "BenchmarkDelivery".toList⟩ rejectBob () "alice@a".toList
        ["bob@b".toList, "carol@c".toList]).calls ∧
    (BenchDelivery zeroSum ⟨1, "BenchmarkDelivery".toList⟩ rejectBob () "alice@a".toList
        ["bob@b".toList, "carol@c".toList]).failed = some "no such mailbox".toList := by
  have hlog : (BenchDelivery zeroSum ⟨1, "BenchmarkDelivery".toList⟩ rejectBob () "alice@a".toList
        ["bob@b".toList, "carol@c".toList]).log =
      [(Call.Start (RandomMsg zeroSum ⟨1, "BenchmarkDelivery".toList⟩).1 "alice@a".toList, none),
       (Call.AddRcpt "bob@b".toList, some "no such mailbox".toList)] := rfl
  have hcalls : (BenchDelivery zeroSum ⟨1, "BenchmarkDelivery".toList⟩ rejectBob () "alice@a".toList
        ["bob@b".toList, "carol@c".toList]).calls =
      [Call.Start (RandomMsg zeroSum ⟨1, "BenchmarkDelivery".toList⟩).1 "alice@a".toList,
       Call.AddRcpt "bob@b".toList] := rfl
  refine ⟨hlog, ?_, ?_, ?_, rfl⟩
  · rw [hcalls]; decide
  · rw [hcalls]; simp
  · rw [hcalls]; simp

/-- C3, amended: an error returned by AddRcpt is fatal to the run.  For every
target, if some AddRcpt call returned an error, the benchmark failed with that
error and that AddRcpt call is the last call of the run: AddRcpt is not called
for the remaining recipients, and Body and Commit are not called. -/
theorem C3_addRcpt_failure_fatal {σ : Type} (target : DeliveryTarget σ)
    (sha1Sum : GoString → List Nat) (b : B) (s : σ) (sender : GoString)
    (recipientTemplates : List GoString) (pre post : List (Call × error))
    (rcpt : GoString) (err : GoString)
    (h : (BenchDelivery sha1Sum b target s sender recipientTemplates).log =
      pre ++ (Call.AddRcpt rcpt, some err) :: post) :
    (BenchDelivery sha1Sum b target s sender recipientTemplates).failed = some err ∧
      post = [] := by
  have := sound_error_last _ (BenchDelivery_sound sha1Sum b target s sender recipientTemplates)
    pre post _ err h
  exact ⟨this.2, this.1⟩

/-- Witness of the amended C3: the run on the target that rejects bob@b. -/
theorem C3_addRcpt_failure_fatal_witness :
    (BenchDelivery zeroSum ⟨2, "BenchmarkDelivery".toList⟩ rejectBob () "alice@a".toList
        ["carolX@c".toList, "bob@b".toList, "dave@d".toList]).log =
      [(Call.Start (RandomMsg zeroSum ⟨2, "BenchmarkDelivery".toList⟩).1 "alice@a".toList, none),
       (Call.AddRcpt "carol0@c".toList, none)] ++
      (Call.AddRcpt "bob@b".toList, some "no such mailbox".toList) :: [] ∧
    ((BenchDelivery zeroSum ⟨2, "BenchmarkDelivery".toList⟩ rejectBob () "alice@a".toList
        ["carolX@c".toList, "bob@b".toList, "dave@d".toList]).failed =
        some "no such mailbox".toList ∧ ([] : List (Call × error)) = []) :=
  ⟨rfl, C3_addRcpt_failure_fatal rejectBob zeroSum ⟨2, "BenchmarkDelivery".toList⟩ ()
    "alice@a".toList ["carolX@c".toList, "bob@b".toList, "dave@d".toList] _ [] _
    "no such mailbox".toList rfl⟩

/-- C2: after SetStatus(r, e) the map associates r with exactly e, whatever was
recorded for r before, and the entry of every other recipient is as before
(present with the same outcome, or absent). -/
theorem C2_SetStatus_frame (m : multipleErrs) (r : GoString) (e : error) :
    (m.SetStatus r e).lookup r = some e ∧
      ∀ r2 : GoString, r2 ≠ r → (m.SetStatus r e).lookup r2 = m.lookup r2 := by
  refine ⟨?_, fun r2 h => ?_⟩
  · simp [multipleErrs.SetStatus]
  · simp [multipleErrs.SetStatus, AList.lookup_insert_ne h]

/-- Witness of C2: overwriting the rejection of a@x leaves the entry of c@x. -/
theorem C2_SetStatus_frame_witness :
    "c@x".toList ≠ "a@x".toList ∧
    (sampleStatus.SetStatus "a@x".toList none).lookup "a@x".toList = some none ∧
    (sampleStatus.SetStatus "a@x".toList none).lookup "c@x".toList =
      sampleStatus.lookup "c@x".toList :=
  ⟨by decide, (C2_SetStatus_frame sampleStatus "a@x".toList none).1,
    (C2_SetStatus_frame sampleStatus "a@x".toList none).2 "c@x".toList (by decide)⟩

theorem recordAll_append (m : multipleErrs) (calls : List (GoString × error))
    (c : GoString × error) :
    recordAll m (calls ++ [c]) = (recordAll m calls).SetStatus c.1 c.2 := by
  simp [recordAll, List.foldl_append]

/-- After a sequence of SetStatus calls with at least one for `r`, the outcome
on record for `r` is one of those recorded for `r`. -/
theorem recordAll_lookup (m : multipleErrs) (r : GoString) :
    ∀ calls : List (GoString × error), (∃ e, (r, e) ∈ calls) →
      ∃ e, (r, e) ∈ calls ∧ (recordAll m calls).lookup r = some e := by
  intro calls
  induction calls using List.reverseRecOn with
  | nil => intro ⟨e, he⟩; simp at he
  | append_singleton init c ih =>
    intro ⟨e, he⟩
    rw [recordAll_append]
    by_cases hc : c.1 = r
    · refine ⟨c.2, ?_, ?_⟩
      · rw [← hc]; simp
      · rw [← hc]; simp [multipleErrs.SetStatus]
    · have hinit : (r, e) ∈ init := by
        rcases List.mem_append.1 he with h | h
        · exact h
        · simp only [List.mem_singleton] at h
          exact absurd (by rw [← h]) hc
      obtain ⟨e2, hmem, hlook⟩ := ih ⟨e, hinit⟩
      refine ⟨e2, List.mem_append_left _ hmem, ?_⟩
      have hne : r ≠ c.1 := fun h => hc h.symm
      simp [multipleErrs.SetStatus, AList.lookup_insert_ne hne, hlook]

/-- C5: for every recipient r and every sequence of SetStatus calls that
records at least one outcome for r (calls for other recipients may be
interleaved, in any order), r has an entry in the resulting map, and the map
reports r as accepted (nil) only if one of the outcomes recorded for r was
nil.  The outcomes accepted, rejected, accepted for b@x leave b@x accepted. -/
theorem C5_accepted_only_if_recorded (m : multipleErrs) (r : GoString)
    (calls : List (GoString × error)) (h : ∃ e, (r, e) ∈ calls) :
    (recordAll m calls).lookup r ≠ none ∧
      ((recordAll m calls).lookup r = some none → (r, none) ∈ calls) ∧
      (recordAll m [("b@x".toList, none), ("b@x".toList, some "rejected".toList),
        ("b@x".toList, none)]).lookup "b@x".toList = some none := by
  obtain ⟨e, hmem, hlook⟩ := recordAll_lookup m r calls h
  refine ⟨by rw [hlook]; simp, fun hacc => ?_, ?_⟩
  · rw [hlook] at hacc
    cases hacc
    exact hmem
  · simp [recordAll, multipleErrs.SetStatus]

/-- Witness of C5: three targets report on b@x, the second one rejects. -/
theorem C5_accepted_only_if_recorded_witness :
    (∃ e, ("b@x".toList, e) ∈
      [("b@x".toList, (none : error)), ("b@x".toList, some "rejected".toList),
        ("b@x".toList, none)]) ∧
    ((recordAll ∅ [("b@x".toList, none), ("b@x".toList, some "rejected".toList),
        ("b@x".toList, none)]).lookup "b@x".toList ≠ none ∧
    ((recordAll ∅ [("b@x".toList, none), ("b@x".toList, some "rejected".toList),
        ("b@x".toList, none)]).lookup "b@x".toList = some none →
      ("b@x".toList, none) ∈
        [("b@x".toList, (none : error)), ("b@x".toList, some "rejected".toList),
          ("b@x".toList, none)]) ∧
    (recordAll ∅ [("b@x".toList, none), ("b@x".toList, some "rejected".toList),
        ("b@x".toList, none)]).lookup "b@x".toList = some none) :=
  ⟨⟨none, by simp⟩,
    C5_accepted_only_if_recorded ∅ "b@x".toList
      [("b@x".toList, none), ("b@x".toList, some "rejected".toList), ("b@x".toList, none)]
      ⟨none, by simp⟩⟩

/-- C8: RandomMsg splits testMailString at the header terminator.  The body
buffer holds testBodyString followed by MessageBodySize = 102400 bytes 'A', its
length is len(testBodyString) + 102400 (at least 100 KB), testHeaderString
followed by the body is testMailString, and the split is at the first empty
line: testHeaderString ends in an empty line, does not begin with one and has
no other one. -/
theorem C8_body_split (sha1Sum : GoString → List Nat) (b : B) :
    (RandomMsg sha1Sum b).2.2.Slice = testBodyString ++ List.replicate 102400 'A' ∧
      (RandomMsg sha1Sum b).2.2.Slice.length = testBodyString.length + 102400 ∧
      100 * 1024 ≤ (RandomMsg sha1Sum b).2.2.Slice.length ∧
      testHeaderString ++ (RandomMsg sha1Sum b).2.2.Slice = testMailString ∧
      "\r\n\r\n".toList <:+ testHeaderString ∧
      ¬ ("\r\n".toList <+: testHeaderString) ∧
      ¬ ("\r\n\r\n".toList <:+: testHeaderString.dropLast) := by
  have hsz : MessageBodySize = 102400 := by decide
  have hslice : (RandomMsg sha1Sum b).2.2.Slice = testBodyString ++ List.replicate 102400 'A' := by
    rw [RandomMsg_eq, Repeat, hsz]
  have hmail : testMailString = testHeaderString ++ (testBodyString ++ List.replicate 102400 'A') := by
    rw [testMailString, Repeat, hsz, List.append_assoc]
  rw [hslice, hmail]
  refine ⟨rfl, ?_, ?_, rfl, ?_, ?_, ?_⟩
  · rw [List.length_append, List.length_replicate]
  · rw [List.length_append, List.length_replicate]
    omega
  · decide
  · decide
  · decide

/-- C7: the header returned by RandomMsg has exactly 19 fields: the 9 fields
that ReadHeader parses from testHeaderString, in the order of its lines,
followed by the ExtraMessageHeaderFields = 10 added ones in insertion order,
the i-th of which has the name "AAAAAAAAAAAA-" followed by the decimal
representation of i (names compared case-insensitively) and a value of
ExtraMessageHeaderFieldSize = 50 bytes 'A'.  The ten added names are pairwise
distinct. -/
theorem C7_header_fields (sha1Sum : GoString → List Nat) (b : B) :
    (RandomMsg sha1Sum b).2.1.fields.length = 19 ∧
      (ReadHeader ⟨testHeaderString⟩).1 = (⟨testHeaderFields⟩, none) ∧
      testHeaderFields.length = 9 ∧
      (RandomMsg sha1Sum b).2.1.fields.map Field.folded =
        (testHeaderFields ++
          (List.range 10).map (fun i : Nat =>
            (⟨"AAAAAAAAAAAA-".toList ++ Itoa i, List.replicate 50 'A'⟩ : Field))).map
          Field.folded ∧
      ExtraMessageHeaderFields = 10 ∧ ExtraMessageHeaderFieldSize = 50 ∧
      ((List.range 10).map (fun i : Nat =>
          ("AAAAAAAAAAAA-".toList ++ Itoa i).map Char.toLower)).Nodup := by
  have h0 := ReadHeader_testHeaderString []
  rw [List.append_nil] at h0
  have hfields : (RandomMsg sha1Sum b).2.1.fields =
      testHeaderFields ++
        (List.range 10).map (fun i : Nat =>
          (⟨"AAAAAAAAAAAA-".toList ++ Itoa i, List.replicate 50 'A'⟩ : Field)) := by
    rw [RandomMsg_eq, h0]
    rfl
  refine ⟨?_, ?_, rfl, ?_, rfl, rfl, ?_⟩
  · rw [hfields]; rfl
  · rw [h0]
  · rw [hfields]
  · decide

/-- Every Body call of a run carries the header and the body that RandomMsg
built before the loop. -/
theorem BenchDelivery_body_call {σ : Type} (sha1Sum : GoString → List Nat) (b : B)
    (target : DeliveryTarget σ) (s : σ) (sender : GoString) (ts : List GoString)
    (header : Header) (body : MemoryBuffer)
    (h : Call.Body header body ∈ (BenchDelivery sha1Sum b target s sender ts).calls) :
    header = (RandomMsg sha1Sum b).2.1 ∧ body = (RandomMsg sha1Sum b).2.2 := by
  obtain ⟨m, hm, _⟩ := BenchDelivery_calls_take sha1Sum b target s sender ts
  rw [hm] at h
  have h2 := List.mem_of_mem_take h
  rw [List.mem_flatten] at h2
  obtain ⟨l, hl, hmem⟩ := h2
  have hl2 := List.eq_of_mem_replicate hl
  subst hl2
  simp only [specIteration, List.mem_cons, List.mem_append, List.mem_map, List.mem_singleton,
    List.mem_nil_iff, or_false] at hmem
  rcases hmem with h1 | ⟨_, _, h1⟩ | h1 | h1
  · exact Call.noConfusion h1
  · exact Call.noConfusion h1
  · exact Call.Body.inj h1
  · exact Call.noConfusion h1

theorem ReadAll_Open (mb : MemoryBuffer) : (ReadAll mb.Open).1 = mb.Slice := by
  rw [ReadAll_eq]
  rfl

/-- C6: the memory-backed buffer over a byte slice s, opened twice, yields s on
each stream when read to the end, also when a stream was partly read before
(a stream read to its end stays at its end, a fresh one starts at the first
byte again); and every Body call of a BenchDelivery
run carries the one body built before the loop, which reads back as the same
bytes in every iteration. -/
theorem C6_buffer_reread :
    (∀ (s : GoString) (k : Nat),
      (ReadAll (MemoryBuffer.mk s).Open).1 = s ∧
      ((MemoryBuffer.mk s).Open.Read k).1 ++
        (ReadAll ((MemoryBuffer.mk s).Open.Read k).2.2).1 = s ∧
      (ReadAll (MemoryBuffer.mk s).Open).2 = ⟨[]⟩) ∧
    (∀ (σ : Type) (target : DeliveryTarget σ) (sha1Sum : GoString → List Nat) (b : B) (st : σ)
      (sender : GoString) (recipientTemplates : List GoString) (header : Header)
      (body : MemoryBuffer),
      Call.Body header body ∈
          (BenchDelivery sha1Sum b target st sender recipientTemplates).calls →
        body = (RandomMsg sha1Sum b).2.2 ∧
        (ReadAll body.Open).1 = (RandomMsg sha1Sum b).2.2.Slice ∧
        (ReadAll body.Open).1 = testBodyString ++ Repeat 'A' MessageBodySize) := by
  refine ⟨fun s k => ⟨?_, ?_, by rw [ReadAll_eq]⟩, ?_⟩
  · exact ReadAll_Open _
  · rw [ReadAll_eq]
    cases s with
    | nil => simp [MemoryBuffer.Open, Reader.Read]
    | cons c cs => simp [MemoryBuffer.Open, Reader.Read, List.take_append_drop]
  · intro σ target sha1Sum b st sender ts header body h
    obtain ⟨_, hb⟩ := BenchDelivery_body_call sha1Sum b target st sender ts header body h
    refine ⟨hb, ?_, ?_⟩
    · rw [ReadAll_Open, hb]
    · rw [ReadAll_Open, hb, RandomMsg_eq]

/-- Witness of C6: the Body call of a run of two iterations on a target that
accepts everything. -/
theorem C6_buffer_reread_witness :
    Call.Body (RandomMsg zeroSum ⟨2, "BenchmarkDelivery".toList⟩).2.1
        (RandomMsg zeroSum ⟨2, "BenchmarkDelivery".toList⟩).2.2 ∈
      (BenchDelivery zeroSum ⟨2, "BenchmarkDelivery".toList⟩ acceptAll () "alice@a".toList
        ["bob@b".toList]).calls ∧
    (ReadAll (RandomMsg zeroSum ⟨2, "BenchmarkDelivery".toList⟩).2.2.Open).1 =
      testBodyString ++ Repeat 'A' MessageBodySize :=
  have hmem : Call.Body (RandomMsg zeroSum ⟨2, "BenchmarkDelivery".toList⟩).2.1
        (RandomMsg zeroSum ⟨2, "BenchmarkDelivery".toList⟩).2.2 ∈
      (BenchDelivery zeroSum ⟨2, "BenchmarkDelivery".toList⟩ acceptAll () "alice@a".toList
        ["bob@b".toList]).calls := by
    rw [(BenchDelivery_of_allSucceed zeroSum ⟨2, "BenchmarkDelivery".toList⟩ acceptAll
      acceptAll_allSucceed () "alice@a".toList ["bob@b".toList]).1]
    simp [specIteration, List.replicate]
  ⟨hmem, (C6_buffer_reread.2 Unit acceptAll zeroSum ⟨2, "BenchmarkDelivery".toList⟩ ()
    "alice@a".toList ["bob@b".toList] _ _ hmem).2.2⟩

/-! ### Recipients -/

theorem X_toList : "X".toList = ['X'] := rfl

/-- C10: for a template that contains "X", two distinct indices give two
different recipients, so a list that repeats such a template yields pairwise
distinct recipients; and no generated recipient contains "X". -/
theorem C10_recipients_distinct :
    (∀ (t : GoString), 'X' ∈ t → ∀ i j : Nat, i ≠ j →
      Replace t "X".toList (Itoa i) (-1) ≠ Replace t "X".toList (Itoa j) (-1)) ∧
    (∀ (t : GoString) (n : Nat), 'X' ∈ t →
      ((List.replicate n t).enum.map
        (fun p => Replace p.2 "X".toList (Itoa p.1) (-1))).Nodup) ∧
    (∀ (t : GoString) (i : Nat), 'X' ∉ Replace t "X".toList (Itoa i) (-1)) := by
  have hinj : ∀ (t : GoString), 'X' ∈ t → ∀ i j : Nat,
      Replace t "X".toList (Itoa i) (-1) = Replace t "X".toList (Itoa j) (-1) → i = j := by
    intro t ht i j h
    rw [X_toList, Itoa_natCast, Itoa_natCast] at h
    exact utoa_inj i j (Replace_inj 'X' _ _ t ht h)
  refine ⟨fun t ht i j hij h => hij (hinj t ht i j h), fun t n ht => ?_, fun t i => ?_⟩
  · refine List.Nodup.map_on ?_ ?_
    · intro p hp q hq hpq
      have hp2 : p.2 = t := List.eq_of_mem_replicate (List.snd_mem_of_mem_enum hp)
      have hq2 : q.2 = t := List.eq_of_mem_replicate (List.snd_mem_of_mem_enum hq)
      simp only [hp2, hq2] at hpq
      have h1 : p.1 = q.1 := hinj t ht _ _ hpq
      exact Prod.ext h1 (hp2.trans hq2.symm)
    · exact List.Nodup.of_map Prod.fst (by rw [List.enum_map_fst]; exact List.nodup_range _)
  · rw [X_toList, Itoa_natCast]
    exact not_mem_Replace 'X' _ (X_not_mem_utoa i) t

/-- Witness of C10: the template userX@example.org at the indices 1 and 11. -/
theorem C10_recipients_distinct_witness :
    'X' ∈ "userX@example.org".toList ∧ (1 : Nat) ≠ 11 ∧
    Replace "userX@example.org".toList "X".toList (Itoa (1 : Nat)) (-1) ≠
      Replace "userX@example.org".toList "X".toList (Itoa (11 : Nat)) (-1) :=
  ⟨by decide, by decide,
    C10_recipients_distinct.1 "userX@example.org".toList (by decide) 1 11 (by decide)⟩

theorem flatten_replicate_getElem? {α : Type} (block : List α) :
    ∀ (n j q : Nat), j < n → q < block.length →
      (List.replicate n block).flatten[j * block.length + q]? = block[q]? := by
  intro n
  induction n with
  | zero => intro j q hj; omega
  | succ n ih =>
    intro j q hj hq
    rw [List.replicate_succ, List.flatten_cons]
    cases j with
    | zero =>
      rw [Nat.zero_mul, Nat.zero_add]
      exact List.getElem?_append_left hq
    | succ j =>
      have hidx : (j + 1) * block.length + q = block.length + (j * block.length + q) := by
        rw [Nat.succ_mul]; omega
      rw [hidx, List.getElem?_append_right (Nat.le_add_right _ _), Nat.add_sub_cancel_left]
      exact ih j q (by omega) hq

theorem specIteration_length (msgMeta : MsgMetadata) (header : Header) (body : MemoryBuffer)
    (sender : GoString) (ts : List GoString) :
    (specIteration msgMeta header body sender ts).length = ts.length + 3 := by
  simp [specIteration, List.enum_length]

theorem specIteration_getElem? (msgMeta : MsgMetadata) (header : Header) (body : MemoryBuffer)
    (sender : GoString) (ts : List GoString) (k : Nat) (tmpl : GoString)
    (hk : ts[k]? = some tmpl) :
    (specIteration msgMeta header body sender ts)[k + 1]? =
      some (Call.AddRcpt (Replace tmpl "X".toList (Itoa k) (-1))) := by
  have hlt : k < ts.length := (List.getElem?_eq_some.1 hk).1
  unfold specIteration
  rw [List.getElem?_cons_succ, List.getElem?_append_left (by simp [List.enum_length, hlt]),
    List.getElem?_map, List.getElem?_enum, hk]
  rfl

/-- The call at the place of the k-th AddRcpt of iteration j in the repeated
call sequence. -/
theorem ideal_getElem? (msgMeta : MsgMetadata) (header : Header) (body : MemoryBuffer)
    (sender : GoString) (ts : List GoString) (n j k : Nat) (tmpl : GoString)
    (hj : j < n) (hk : ts[k]? = some tmpl) :
    (List.replicate n (specIteration msgMeta header body sender ts)).flatten[
        j * (ts.length + 3) + 1 + k]? =
      some (Call.AddRcpt (Replace tmpl "X".toList (Itoa k) (-1))) := by
  have hlt : k < ts.length := (List.getElem?_eq_some.1 hk).1
  have h := flatten_replicate_getElem? (specIteration msgMeta header body sender ts) n j (k + 1) hj
    (by rw [specIteration_length]; omega)
  rw [specIteration_length, specIteration_getElem? msgMeta header body sender ts k tmpl hk] at h
  rw [← h]
  congr 1
  omega

/-- C9: in every iteration of BenchDelivery the k-th AddRcpt call (k the
position of the template in the list, from 0) receives the k-th template with
every "X" replaced by the decimal representation of k, whatever the iteration
number.  On any target, the call at that place, when the run gets there, is
this one; on a target that never fails the run gets there in each of the N
iterations.  A template without "X" is passed unchanged, as bob@b and carol@c
are. -/
theorem C9_kth_recipient :
    (∀ (σ : Type) (target : DeliveryTarget σ) (sha1Sum : GoString → List Nat) (b : B) (s : σ)
      (sender : GoString) (recipientTemplates : List GoString) (j k : Nat) (tmpl : GoString)
      (c : Call), recipientTemplates[k]? = some tmpl →
      (BenchDelivery sha1Sum b target s sender recipientTemplates).calls[
          j * (recipientTemplates.length + 3) + 1 + k]? = some c →
      c = Call.AddRcpt (Replace tmpl "X".toList (Itoa k) (-1))) ∧
    (∀ (σ : Type) (target : DeliveryTarget σ) (sha1Sum : GoString → List Nat) (b : B) (s : σ)
      (sender : GoString) (recipientTemplates : List GoString) (j k : Nat) (tmpl : GoString),
      target.AllSucceed → j < b.N → recipientTemplates[k]? = some tmpl →
      (BenchDelivery sha1Sum b target s sender recipientTemplates).calls[
          j * (recipientTemplates.length + 3) + 1 + k]? =
        some (Call.AddRcpt (Replace tmpl "X".toList (Itoa k) (-1)))) ∧
    (∀ (tmpl new : GoString), 'X' ∉ tmpl → Replace tmpl "X".toList new (-1) = tmpl) ∧
    (BenchDelivery zeroSum ⟨2, "BenchmarkDelivery".toList⟩ acceptAll () "alice@a".toList
        ["bob@b".toList, "carol@c".toList]).calls =
      [Call.Start (RandomMsg zeroSum ⟨2, "BenchmarkDelivery".toList⟩).1 "alice@a".toList,
       Call.AddRcpt "bob@b".toList, Call.AddRcpt "carol@c".toList,
       Call.Body (RandomMsg zeroSum ⟨2, "BenchmarkDelivery".toList⟩).2.1
         (RandomMsg zeroSum ⟨2, "BenchmarkDelivery".toList⟩).2.2,
       Call.Commit,
       Call.Start (RandomMsg zeroSum ⟨2, "BenchmarkDelivery".toList⟩).1 "alice@a".toList,
       Call.AddRcpt "bob@b".toList, Call.AddRcpt "carol@c".toList,
       Call.Body (RandomMsg zeroSum ⟨2, "BenchmarkDelivery".toList⟩).2.1
         (RandomMsg zeroSum ⟨2, "BenchmarkDelivery".toList⟩).2.2,
       Call.Commit] := by
  refine ⟨?_, ?_, ?_, rfl⟩
  · intro σ target sha1Sum b s sender ts j k tmpl c hk hc
    obtain ⟨m, hm, _⟩ := BenchDelivery_calls_take sha1Sum b target s sender ts
    rw [hm, List.getElem?_take] at hc
    split at hc
    · have hlt : j * (ts.length + 3) + 1 + k <
          (List.replicate b.N (specIteration (RandomMsg sha1Sum b).1 (RandomMsg sha1Sum b).2.1
            (RandomMsg sha1Sum b).2.2 sender ts)).flatten.length :=
        (List.getElem?_eq_some.1 hc).1
      have hlen : (List.replicate b.N (specIteration (RandomMsg sha1Sum b).1
          (RandomMsg sha1Sum b).2.1 (RandomMsg sha1Sum b).2.2 sender ts)).flatten.length =
          b.N * (ts.length + 3) := by
        simp [specIteration_length]
      rw [hlen] at hlt
      have hj : j < b.N := by
        by_contra hge
        have : b.N * (ts.length + 3) ≤ j * (ts.length + 3) :=
          Nat.mul_le_mul_right _ (Nat.le_of_not_lt hge)
        omega
      rw [ideal_getElem? _ _ _ sender ts b.N j k tmpl hj hk] at hc
      exact (Option.some.inj hc).symm
    · cases hc
  · intro σ target sha1Sum b s sender ts j k tmpl hok hj hk
    rw [(BenchDelivery_of_allSucceed sha1Sum b target hok s sender ts).1]
    exact ideal_getElem? _ _ _ sender ts b.N j k tmpl hj hk
  · intro tmpl new h
    rw [X_toList]
    exact Replace_of_not_mem 'X' new tmpl h

/-- Witness of C9: the second template in the second of two iterations. -/
theorem C9_kth_recipient_witness :
    acceptAll.AllSucceed ∧ 1 < 2 ∧
    ["userX@c".toList, "listX@d".toList][1]? = some "listX@d".toList ∧
    (BenchDelivery zeroSum ⟨2, "BenchmarkDelivery".toList⟩ acceptAll () "alice@a".toList
        ["userX@c".toList, "listX@d".toList]).calls[1 * (2 + 3) + 1 + 1]? =
      some (Call.AddRcpt (Replace "listX@d".toList "X".toList (Itoa (1 : Nat)) (-1))) ∧
    Replace "listX@d".toList "X".toList (Itoa (1 : Nat)) (-1) = "list1@d".toList :=
  ⟨acceptAll_allSucceed, by decide, rfl,
    C9_kth_recipient.2.1 Unit acceptAll zeroSum ⟨2, "BenchmarkDelivery".toList⟩ ()
      "alice@a".toList ["userX@c".toList, "listX@d".toList] 1 1 "listX@d".toList
      acceptAll_allSucceed (by decide) rfl,
    by decide⟩

end testutils
